import Mathlib

/-!
Verification of the bhavcopy ingestion and accumulation pipeline
(`bhav.py`, `dashboard.py`) against its specification.

Dates are modelled as integers counting days from a fixed Monday, so that
`weekday(d) = d % 7` matches Python's `date.weekday()` convention
(Monday = 0, ..., Sunday = 6).  Money/percentage values are modelled as
rationals.  The external HTTP layer (`requests.get`) is modelled as an
oracle `fetch : Int → FetchResult`, and the on-disk CSV cache
(`os.path.exists`) as a predicate `cache : Int → Bool`.
-/

namespace Bhav

-- Dates are plain integers (see header comment): Monday = 0 (mod 7).

/-- `is_trading_day` from bhav.py line 32: `date.weekday() < 5`
(Monday..Friday are trading days). -/
def is_trading_day (d : Int) : Bool := decide (d % 7 < 5)

/-- The backward-skip loop inlined at bhav.py lines 57-59:
`date -= timedelta(days=1)` has already happened; then
`while not is_trading_day(date): date -= timedelta(days=1)`.
The loop is given fuel; 7 units are provably never exhausted. -/
def skipBack : Nat → Int → Int
  | 0, d => d
  | n + 1, d => if is_trading_day d then d else skipBack n (d - 1)

/-- The combined "previous trading day" step of bhav.py lines 57-59:
one calendar-day decrement followed by the weekend-skipping loop. -/
def prev_trading_day (d : Int) : Int := skipBack 7 (d - 1)

/-- Result of one `requests.get` call for a date's bhavcopy URL:
HTTP 200, a non-200 status (file absent), or a raised
`requests.RequestException`. -/
inductive FetchResult
  | found
  | notFound
  | transportErr
deriving DecidableEq

/-- Outcome of `download_bhavcopy` (bhav.py lines 36-66): a usable file for
some date (the date determines the returned file path), the
"No recent Bhavcopy available" warning after exhausting attempts, or the
"Error downloading Bhavcopy" path on a transport exception. -/
inductive DLOutcome
  | file (d : Int)
  | noRecent
  | transportError
deriving DecidableEq

/-- The `while attempts > 0` loop of `download_bhavcopy` (bhav.py lines
40-63), instrumented with the list of candidate dates examined by the loop
(one entry per iteration).  Per iteration: a cache hit returns the cached
file; HTTP 200 saves and returns the file; a non-200 status moves the
candidate to the previous trading day and spends one attempt; a transport
exception returns immediately. -/
def downloadLoop (fetch : Int → FetchResult) (cache : Int → Bool) :
    Nat → Int → DLOutcome × List Int
  | 0, _ => (DLOutcome.noRecent, [])
  | n + 1, d =>
    if cache d then (DLOutcome.file d, [d])
    else
      match fetch d with
      | .found => (DLOutcome.file d, [d])
      | .transportErr => (DLOutcome.transportError, [d])
      | .notFound =>
        let rest := downloadLoop fetch cache n (prev_trading_day d)
        (rest.1, d :: rest.2)

/-- `download_bhavcopy` (bhav.py line 38): `attempts = 3`. -/
def download_bhavcopy (fetch : Int → FetchResult) (cache : Int → Bool)
    (d : Int) : DLOutcome × List Int :=
  downloadLoop fetch cache 3 d

/-- The dates visited by the rolling-window loop of bhav.py lines 168-170:
`for i in range(days): date = datetime.today() - timedelta(days=i)`. -/
def window_dates (today : Int) (n : Nat) : List Int :=
  (List.range n).map (fun (i : Nat) => today - (i : Int))

/-- The orchestration loop of bhav.py lines 169-172: every window date is
passed to `download_bhavcopy`, with no trading-day guard. -/
def run_window (fetch : Int → FetchResult) (cache : Int → Bool)
    (today : Int) (n : Nat) : List (Int × DLOutcome) :=
  (window_dates today n).map (fun d => (d, (download_bhavcopy fetch cache d).1))

/-! ### Model of Python float parsing

`float(s)` / `astype(float)` on decimal strings: optional surrounding
whitespace, optional sign, a decimal mantissa with optional fraction part,
an optional exponent, case-insensitive `nan` (which yields the NaN value,
encoded here as `none`).  IEEE infinities and the digit-group underscores
Python also accepts have no rational counterpart and are mapped to the
failure case; no value in this pipeline exercises them. -/

/-- Python `str.strip()`: drop surrounding whitespace.  (Implemented over
`List Char` because the core `String` versions do not reduce in the
kernel.) -/
def pyStrip (s : String) : String :=
  ⟨((s.data.dropWhile Char.isWhitespace).reverse.dropWhile Char.isWhitespace).reverse⟩

/-- Python `str.upper()`. -/
def pyToUpper (s : String) : String := ⟨s.data.map Char.toUpper⟩

/-- Python `str.lower()`. -/
def pyToLower (s : String) : String := ⟨s.data.map Char.toLower⟩

def digitsToNat (cs : List Char) : Nat :=
  cs.foldl (fun a c => 10 * a + (c.toNat - 48)) 0

/-- Digit-string value accumulated directly in `ℚ` (a single large `Nat`
cast would not reduce efficiently). -/
def digitsToQ (cs : List Char) : ℚ :=
  cs.foldl (fun a c => 10 * a + ((c.toNat - 48 : Nat) : ℚ)) 0

def fracVal (cs : List Char) : ℚ :=
  digitsToQ cs / (10 : ℚ) ^ cs.length

def parseExpDigits (cs : List Char) : Option Int :=
  if !cs.isEmpty && cs.all Char.isDigit then some (digitsToNat cs) else none

def parseExp : List Char → Option Int
  | '+' :: rest => parseExpDigits rest
  | '-' :: rest => (parseExpDigits rest).map (fun k => -k)
  | rest => parseExpDigits rest

def parseMantissa (cs : List Char) : Option (ℚ × List Char) :=
  let ip := cs.takeWhile Char.isDigit
  let rest := cs.dropWhile Char.isDigit
  match rest with
  | '.' :: rest2 =>
    let fp := rest2.takeWhile Char.isDigit
    let rest3 := rest2.dropWhile Char.isDigit
    if ip.isEmpty && fp.isEmpty then none
    else some (digitsToQ ip + fracVal fp, rest3)
  | _ => if ip.isEmpty then none else some (digitsToQ ip, rest)

def pyFloatCore (cs : List Char) : Except Unit (Option ℚ) :=
  if cs = ['n', 'a', 'n'] then .ok none
  else if cs = ['i', 'n', 'f'] ∨ cs = ['i', 'n', 'f', 'i', 'n', 'i', 't', 'y']
    then .error ()
  else
    match parseMantissa cs with
    | none => .error ()
    | some (m, rest) =>
      match rest with
      | [] => .ok (some m)
      | 'e' :: rest2 =>
        match parseExp rest2 with
        | some k => .ok (some (m * (10 : ℚ) ^ k))
        | none => .error ()
      | _ => .error ()

/-- Python `float(s)`: `.ok none` is NaN, `.ok (some q)` a finite value,
`.error ()` a raised `ValueError`. -/
def pyFloatOfString (s : String) : Except Unit (Option ℚ) :=
  match (pyToLower (pyStrip s)).data with
  | '+' :: rest => pyFloatCore rest
  | '-' :: rest => (pyFloatCore rest).map (Option.map (fun q => -q))
  | cs => pyFloatCore cs

/-! ### Raw CSV model and `process_bhavcopy` (bhav.py lines 70-142)

A raw cell is a missing value (pandas NaN) or a string; a row is an
association list from column name to cell; a `RawFile` is the parsed CSV.
The Store (SQLite table `bhavcopy`) is a list of `ProcRow`.  The
`pd.to_datetime(...).dt.strftime(...)` composite applied to the DATE column
is an external library collaborator and is taken as a parameter
`pd : String → RawCell` (returning `.na` for a coerce failure); every
theorem below holds for all such parameters. -/

inductive RawCell
  | na
  | str (s : String)
deriving DecidableEq

/-- `pd.to_numeric(col, errors="coerce")` on one cell (bhav.py line 111):
parse failures become NaN (`none`), never zero. -/
def toNumericCoerce : RawCell → Option ℚ
  | .na => none
  | .str s =>
    match pyFloatOfString s with
    | .ok v => v
    | .error _ => none

abbrev Row' := List (String × RawCell)

def lookupCell (r : Row') (c : String) : RawCell :=
  match r.find? (fun p => p.1 == c) with
  | some p => p.2
  | none => .na

structure RawFile where
  header : List String
  rows : List Row'

/-- Column-name normalization of bhav.py line 73:
`df.columns.str.strip().str.upper()`. -/
def normCol (s : String) : String := pyToUpper (pyStrip s)

/-- Cell-value normalization of bhav.py line 74: strip string values. -/
def stripCell : RawCell → RawCell
  | .na => .na
  | .str s => .str (pyStrip s)

/-- The rename of bhav.py lines 80-81: `DATE1` → `DATE`. -/
def renameDate1 (c : String) : String := if c = "DATE1" then "DATE" else c

/-- The DATE conversion of bhav.py lines 84-85 on one cell, with the
`to_datetime`/`strftime` composite abstracted as `pd`. -/
def convDateCell (pd : String → RawCell) : RawCell → RawCell
  | .na => .na
  | .str s => pd s

def updateCol (c : String) (g : RawCell → RawCell) (r : Row') : Row' :=
  r.map (fun p => if p.1 = c then (p.1, g p.2) else p)

/-- bhav.py lines 72-85: normalize column names, strip cell values, rename
`DATE1` to `DATE`, and convert the `DATE` column when present. -/
def normalizeFile (pd : String → RawCell) (f : RawFile) : RawFile :=
  let hdr := (f.header.map normCol).map renameDate1
  let rows := f.rows.map (fun r =>
    r.map (fun p => (renameDate1 (normCol p.1), stripCell p.2)))
  ⟨hdr, if "DATE" ∈ hdr then rows.map (updateCol "DATE" (convDateCell pd)) else rows⟩

/-- bhav.py line 89. -/
def required_cols : List String :=
  ["SYMBOL", "SERIES", "DELIV_PER", "DELIV_QTY", "TTL_TRD_QNTY",
   "CLOSE_PRICE", "NO_OF_TRADES", "DATE"]

/-- `astype(str)` on one cell: NaN prints as "nan". -/
def astype_str : RawCell → String
  | .na => "nan"
  | .str s => s

/-- bhav.py line 110: `.str.replace(",", "").str.replace("%", "")` removes
every comma and every percent sign. -/
def stripCommaPercent (s : String) : String :=
  String.mk (s.data.filter (fun c => c != ',' && c != '%'))

/-- The full DELIV_PER conversion of bhav.py line 110 on one cell:
`astype(str)`, strip commas and percent signs, `astype(float)`. -/
def convDelivPer (c : RawCell) : Except Unit (Option ℚ) :=
  pyFloatOfString (stripCommaPercent (astype_str c))

/-- Column-wide `astype(float)`: the first unparseable cell raises, aborting
the whole conversion (and, upstream, the whole batch). -/
def convAllDelivPer : List Row' → Except Unit (List (Row' × Option ℚ))
  | [] => .ok []
  | r :: rs =>
    match convDelivPer (lookupCell r "DELIV_PER") with
    | .error e => .error e
    | .ok dp => (convAllDelivPer rs).map (fun t => (r, dp) :: t)

/-- One row of the Store (SQLite table `bhavcopy`), i.e. the 8 columns
selected at bhav.py line 127.  `deliv_per` is a parsed float (NaN rows were
dropped); `deliv_qty` went through `to_numeric(errors="coerce")`; the
remaining columns keep their raw cells. -/
structure ProcRow where
  date : RawCell
  symbol : RawCell
  series : RawCell
  deliv_per : ℚ
  deliv_qty : Option ℚ
  ttl_trd_qnty : RawCell
  close_price : RawCell
  no_of_trades : RawCell
deriving DecidableEq

def mkProcRow (r : Row') (dp : ℚ) : ProcRow :=
  { date := lookupCell r "DATE"
    symbol := lookupCell r "SYMBOL"
    series := lookupCell r "SERIES"
    deliv_per := dp
    deliv_qty := toNumericCoerce (lookupCell r "DELIV_QTY")
    ttl_trd_qnty := lookupCell r "TTL_TRD_QNTY"
    close_price := lookupCell r "CLOSE_PRICE"
    no_of_trades := lookupCell r "NO_OF_TRADES" }

inductive PrepErr
  | missingCols (m : List String)
  | readError
  | noQualifying
deriving DecidableEq

/-- The store-independent part of `process_bhavcopy` (bhav.py lines 72-127):
normalize, check required columns, keep SERIES == "EQ", convert DELIV_PER
(an unparseable cell raises → `readError`), convert DELIV_QTY, drop NaN
DELIV_PER rows, keep DELIV_PER > 60, report `noQualifying` when nothing
survives, and select the 8 store columns. -/
def prep (pd : String → RawCell) (f : RawFile) : Except PrepErr (List ProcRow) :=
  let nf := normalizeFile pd f
  let missing := required_cols.filter (fun c => !(nf.header.contains c))
  if missing.isEmpty then
    let eqRows := nf.rows.filter (fun r =>
      decide (lookupCell r "SERIES" = RawCell.str "EQ"))
    match convAllDelivPer eqRows with
    | .error _ => .error .readError
    | .ok conv =>
      let known := conv.filterMap (fun p => p.2.map (fun dp => (p.1, dp)))
      let qualifying := known.filter (fun p => decide (p.2 > 60))
      if qualifying.isEmpty then .error .noQualifying
      else .ok (qualifying.map (fun p => mkProcRow p.1 p.2))
  else .error (.missingCols missing)

/-- Caller-visible outcome of `process_bhavcopy`: the three `return None`
paths are tagged with the message that accompanied them (`st.error` for a
read/parse exception, `st.error` naming missing columns, `st.warning` for
the empty-after-threshold case), and the success path carries the returned
(post-dedup) batch. -/
inductive ProcessOutcome
  | readError
  | missingCols (m : List String)
  | noQualifying
  | ok (batch : List ProcRow)
deriving DecidableEq

def outcomeOfErr : PrepErr → ProcessOutcome
  | .missingCols m => .missingCols m
  | .readError => .readError
  | .noQualifying => .noQualifying

/-- `SELECT date, symbol FROM bhavcopy` (bhav.py line 134). -/
def storeKeys (store : List ProcRow) : List (RawCell × RawCell) :=
  store.map (fun r => (r.date, r.symbol))

/-- `process_bhavcopy` (bhav.py lines 70-142) acting on the Store: the
dedup filter of line 135 removes incoming rows whose (DATE, SYMBOL) pair is
already present, and line 137 appends the survivors when there are any. -/
def process_bhavcopy (pd : String → RawCell) (f : RawFile)
    (store : List ProcRow) : ProcessOutcome × List ProcRow :=
  match prep pd f with
  | .error e => (outcomeOfErr e, store)
  | .ok batch0 =>
    let batch := batch0.filter (fun r =>
      decide ((r.date, r.symbol) ∉ storeKeys store))
    (.ok batch, if batch.isEmpty then store else store ++ batch)

/-- The Python return value of `process_bhavcopy` as the orchestration loop
of bhav.py lines 174-179 sees it: all three failure paths return `None`. -/
def returnedValue : ProcessOutcome → Option (List ProcRow)
  | .ok b => some b
  | _ => none

/-- A concrete stand-in for the `to_datetime`/`strftime` parameter that
keeps the date text unchanged. -/
def pdId : String → RawCell := RawCell.str

deriving instance DecidableEq for Except

/-! ### Concrete fixtures for witnesses and counterexamples -/

/-- A one-row raw file whose row qualifies (SERIES EQ, DELIV_PER 70 > 60). -/
def file70 : RawFile :=
  ⟨required_cols,
   [[("SYMBOL", .str "AAA"), ("SERIES", .str "EQ"), ("DELIV_PER", .str "70"),
     ("DELIV_QTY", .str "5"), ("TTL_TRD_QNTY", .str "10"),
     ("CLOSE_PRICE", .str "1"), ("NO_OF_TRADES", .str "2"),
     ("DATE", .str "2024-01-01")]]⟩

/-- The Store row produced by ingesting `file70` (under `pdId`). -/
def row70 : ProcRow :=
  ⟨.str "2024-01-01", .str "AAA", .str "EQ", 70, some 5,
   .str "10", .str "1", .str "2"⟩

/-- A one-row raw file whose row fails the DELIV_PER > 60 threshold. -/
def fileLow : RawFile :=
  ⟨required_cols,
   [[("SYMBOL", .str "BBB"), ("SERIES", .str "EQ"), ("DELIV_PER", .str "50"),
     ("DELIV_QTY", .str "5"), ("TTL_TRD_QNTY", .str "10"),
     ("CLOSE_PRICE", .str "1"), ("NO_OF_TRADES", .str "2"),
     ("DATE", .str "2024-01-01")]]⟩

/-- A raw file whose header lacks the SERIES column. -/
def fileNoSeries : RawFile :=
  ⟨["SYMBOL", "DELIV_PER", "DELIV_QTY", "TTL_TRD_QNTY", "CLOSE_PRICE",
    "NO_OF_TRADES", "DATE"],
   [[("SYMBOL", .str "AAA"), ("DELIV_PER", .str "70"),
     ("DELIV_QTY", .str "5"), ("TTL_TRD_QNTY", .str "10"),
     ("CLOSE_PRICE", .str "1"), ("NO_OF_TRADES", .str "2"),
     ("DATE", .str "2024-01-01")]]⟩

/-- A two-row raw file: the first row's DELIV_PER is the unparseable string
"abc", the second row is the valid qualifying row of `file70`. -/
def fileBadDp : RawFile :=
  ⟨required_cols,
   [[("SYMBOL", .str "ZZZ"), ("SERIES", .str "EQ"), ("DELIV_PER", .str "abc"),
     ("DELIV_QTY", .str "5"), ("TTL_TRD_QNTY", .str "10"),
     ("CLOSE_PRICE", .str "1"), ("NO_OF_TRADES", .str "2"),
     ("DATE", .str "2024-01-01")],
    [("SYMBOL", .str "AAA"), ("SERIES", .str "EQ"), ("DELIV_PER", .str "70"),
     ("DELIV_QTY", .str "5"), ("TTL_TRD_QNTY", .str "10"),
     ("CLOSE_PRICE", .str "1"), ("NO_OF_TRADES", .str "2"),
     ("DATE", .str "2024-01-01")]]⟩

/-- A two-row raw file: the first row's DELIV_PER cell is missing (NaN),
the second row is the valid qualifying row of `file70`. -/
def fileNaDp : RawFile :=
  ⟨required_cols,
   [[("SYMBOL", .str "ZZZ"), ("SERIES", .str "EQ"), ("DELIV_PER", .na),
     ("DELIV_QTY", .str "5"), ("TTL_TRD_QNTY", .str "10"),
     ("CLOSE_PRICE", .str "1"), ("NO_OF_TRADES", .str "2"),
     ("DATE", .str "2024-01-01")],
    [("SYMBOL", .str "AAA"), ("SERIES", .str "EQ"), ("DELIV_PER", .str "70"),
     ("DELIV_QTY", .str "5"), ("TTL_TRD_QNTY", .str "10"),
     ("CLOSE_PRICE", .str "1"), ("NO_OF_TRADES", .str "2"),
     ("DATE", .str "2024-01-01")]]⟩

/-! ### dashboard.py model (`get_filtered_stocks`, lines 10-31)

One row of dashboard.py's `bhavcopy` table.  `deliv_per` (REAL) and
`total_traded_qty` are nullable; the TEXT date column orders
chronologically (ISO format), modelled as an integer. -/

structure DashRow where
  symbol : String
  date : Int
  series : String
  deliv_per : Option ℚ
  total_traded_qty : Option ℚ
deriving DecidableEq

/-- The SQL WHERE clause of dashboard.py lines 12-17:
`series = 'EQ' AND deliv_per > 60`; a NULL `deliv_per` fails the
comparison. -/
def dashWhere (r : DashRow) : Bool :=
  decide (r.series = "EQ") &&
    (match r.deliv_per with
     | some q => decide (q > 60)
     | none => false)

/-- `ORDER BY symbol, date`. -/
def dashLe (a b : DashRow) : Prop :=
  a.symbol < b.symbol ∨ (a.symbol = b.symbol ∧ a.date ≤ b.date)

instance : DecidableRel dashLe := fun _ _ =>
  inferInstanceAs (Decidable (_ ∨ _))

/-- The SQL query result of dashboard.py lines 12-18. -/
def dashSql (db : List DashRow) : List DashRow :=
  List.insertionSort dashLe (db.filter dashWhere)

/-- The pandas volume filter of dashboard.py line 22:
`df["total_traded_qty"] >= volume_threshold`; NaN compares false. -/
def volOk (thr : ℚ) (r : DashRow) : Bool :=
  match r.total_traded_qty with
  | some q => decide (q ≥ thr)
  | none => false

/-- The DataFrame `df` after the volume filter (dashboard.py line 22). -/
def survivors (db : List DashRow) (thr : ℚ) : List DashRow :=
  (dashSql db).filter (volOk thr)

/-- `sort_values("date")` (dashboard.py line 27). -/
def dateLe (a b : DashRow) : Prop := a.date ≤ b.date

instance : DecidableRel dateLe := fun a b => Int.decLe a.date b.date

/-- One symbol's rows of `df`, date-ascending (dashboard.py line 27). -/
def stockSorted (db : List DashRow) (thr : ℚ) (s : String) : List DashRow :=
  List.insertionSort dateLe
    ((survivors db thr).filter (fun r => decide (r.symbol = s)))

/-- pandas `Series.is_monotonic_increasing` on a float column: any NaN
makes it false, otherwise non-decreasing (equal neighbours allowed). -/
def is_monotonic_increasing : List (Option ℚ) → Bool
  | [] => true
  | .none :: _ => false
  | [some _] => true
  | some _ :: .none :: _ => false
  | some a :: some b :: t =>
    decide (a ≤ b) && is_monotonic_increasing (some b :: t)

/-- `get_filtered_stocks` (dashboard.py lines 10-31): the filtered
DataFrame plus the symbols flagged as accumulating. -/
def get_filtered_stocks (db : List DashRow) (thr : ℚ) :
    List DashRow × List String :=
  let df := survivors db thr
  let syms := (df.map (fun r => r.symbol)).dedup
  (df, syms.filter (fun s =>
    is_monotonic_increasing
      ((stockSorted db thr s).map (fun r => r.deliv_per))))

/-! ### `get_accumulation_stocks` model (bhav.py lines 144-162) -/

/-- One row of bhav.py's `bhavcopy` table as the aggregation query reads it
(nullable numeric columns). -/
structure AccRow where
  symbol : String
  date : Int
  deliv_per : Option ℚ
  deliv_qty : Option ℚ
  no_of_trades : Option ℚ
deriving DecidableEq

structure AccSummary where
  symbol : String
  avg_deliv_per : Option ℚ
  avg_deliv_qty : Option ℚ
  avg_trades : Option ℚ
deriving DecidableEq

/-- SQL `AVG`: NULLs are ignored; an all-NULL (or empty) group gives
NULL. -/
def sqlAvg (l : List (Option ℚ)) : Option ℚ :=
  let vs := l.filterMap id
  if vs.isEmpty then none else some (vs.sum / vs.length)

/-- `WHERE date >= date('now', '-N days')`; the cutoff date is a
parameter. -/
def windowRows (store : List AccRow) (cutoff : Int) : List AccRow :=
  store.filter (fun r => decide (cutoff ≤ r.date))

def groupRows (store : List AccRow) (cutoff : Int) (s : String) :
    List AccRow :=
  (windowRows store cutoff).filter (fun r => decide (r.symbol = s))

/-- `GROUP BY symbol` with the three `AVG` aggregates. -/
def summaryOf (store : List AccRow) (cutoff : Int) (s : String) :
    AccSummary :=
  ⟨s, sqlAvg ((groupRows store cutoff s).map (fun r => r.deliv_per)),
     sqlAvg ((groupRows store cutoff s).map (fun r => r.deliv_qty)),
     sqlAvg ((groupRows store cutoff s).map (fun r => r.no_of_trades))⟩

/-- `HAVING avg_deliv_per > 60 AND avg_trades > 100000` (NULL fails). -/
def havingOk (a : AccSummary) : Bool :=
  (match a.avg_deliv_per with
   | some q => decide (q > 60)
   | none => false) &&
  (match a.avg_trades with
   | some q => decide (q > 100000)
   | none => false)

/-- Sort key for `ORDER BY avg_deliv_qty DESC`; SQL NULL sorts below every
value, so it lands at the bottom (end of the descending list). -/
def qtyKey (a : AccSummary) : WithBot ℚ := a.avg_deliv_qty

/-- `a` precedes `b` in the descending order. -/
def accGe (a b : AccSummary) : Prop := qtyKey b ≤ qtyKey a

instance : DecidableRel accGe := fun _ _ =>
  inferInstanceAs (Decidable (_ ≤ _))

instance : IsTotal AccSummary accGe :=
  ⟨fun a b => le_total (qtyKey b) (qtyKey a)⟩

instance : IsTrans AccSummary accGe :=
  ⟨fun _ _ _ h1 h2 => le_trans h2 h1⟩

/-- `get_accumulation_stocks` (bhav.py lines 144-162). -/
def get_accumulation_stocks (store : List AccRow) (cutoff : Int) :
    List AccSummary :=
  let syms := ((windowRows store cutoff).map (fun r => r.symbol)).dedup
  List.insertionSort accGe
    ((syms.map (summaryOf store cutoff)).filter havingOk)

/-! ### Helper lemmas about `process_bhavcopy` -/

lemma process_of_prep_error {pd : String → RawCell} {f : RawFile} {e : PrepErr}
    (h : prep pd f = .error e) (store : List ProcRow) :
    process_bhavcopy pd f store = (outcomeOfErr e, store) := by
  simp [process_bhavcopy, h]

lemma if_isEmpty_append (store batch : List ProcRow) :
    (if batch.isEmpty then store else store ++ batch) = store ++ batch := by
  cases batch with
  | nil => simp
  | cons a t => rfl

lemma process_of_prep_ok {pd : String → RawCell} {f : RawFile}
    {b0 : List ProcRow} (h : prep pd f = .ok b0) (store : List ProcRow) :
    process_bhavcopy pd f store =
      (.ok (b0.filter (fun r => decide ((r.date, r.symbol) ∉ storeKeys store))),
       store ++
         b0.filter (fun r => decide ((r.date, r.symbol) ∉ storeKeys store))) := by
  simp only [process_bhavcopy, h, if_isEmpty_append]

lemma storeKeys_append (s t : List ProcRow) :
    storeKeys (s ++ t) = storeKeys s ++ storeKeys t :=
  List.map_append _ s t

lemma mem_batch_iff {b0 : List ProcRow} {ks : List (RawCell × RawCell)}
    {r : ProcRow} :
    r ∈ b0.filter (fun r => decide ((r.date, r.symbol) ∉ ks)) ↔
      r ∈ b0 ∧ (r.date, r.symbol) ∉ ks := by
  rw [List.mem_filter, decide_eq_true_iff]

lemma convAll_error_of_mem {rs : List Row'} {r : Row'} (hr : r ∈ rs)
    (h : convDelivPer (lookupCell r "DELIV_PER") = .error ()) :
    convAllDelivPer rs = .error () := by
  induction rs with
  | nil => cases hr
  | cons a t ih =>
    cases hr with
    | head => simp [convAllDelivPer, h]
    | tail _ hmem =>
      simp only [convAllDelivPer]
      cases hconv : convDelivPer (lookupCell a "DELIV_PER") with
      | error e => cases e; rfl
      | ok dp => rw [ih hmem]; rfl

/-! ### Helper lemmas about the calendar and the download loop -/

lemma is_trading_day_eq_true_iff {d : Int} :
    is_trading_day d = true ↔ d % 7 < 5 := by
  simp [is_trading_day]

lemma is_trading_day_eq_false_iff {d : Int} :
    is_trading_day d = false ↔ ¬ d % 7 < 5 := by
  simp [is_trading_day]

lemma downloadLoop_trace_len (fetch : Int → FetchResult) (cache : Int → Bool) :
    ∀ (n : Nat) (d : Int), (downloadLoop fetch cache n d).2.length ≤ n := by
  intro n
  induction n with
  | zero => intro d; simp [downloadLoop]
  | succ n ih =>
    intro d
    simp only [downloadLoop]
    split
    · simp
    · cases fetch d <;> simp [List.length_cons]
      exact ih (prev_trading_day d)

lemma downloadLoop_trace_head (fetch : Int → FetchResult) (cache : Int → Bool)
    (n : Nat) (d : Int) :
    (downloadLoop fetch cache (n + 1) d).2.head? = some d := by
  simp only [downloadLoop]
  split
  · rfl
  · cases fetch d <;> rfl

lemma prev_trading_day_spec (d : Int) :
    is_trading_day (prev_trading_day d) = true ∧
      d - 7 ≤ prev_trading_day d ∧ prev_trading_day d ≤ d - 1 := by
  unfold prev_trading_day skipBack
  by_cases h1 : (d - 1) % 7 < 5
  · rw [if_pos (is_trading_day_eq_true_iff.2 h1)]
    exact ⟨is_trading_day_eq_true_iff.2 h1, by omega, by omega⟩
  · rw [if_neg (fun h => h1 (is_trading_day_eq_true_iff.1 h))]
    unfold skipBack
    by_cases h2 : (d - 1 - 1) % 7 < 5
    · rw [if_pos (is_trading_day_eq_true_iff.2 h2)]
      exact ⟨is_trading_day_eq_true_iff.2 h2, by omega, by omega⟩
    · rw [if_neg (fun h => h2 (is_trading_day_eq_true_iff.1 h))]
      unfold skipBack
      have h3 : (d - 1 - 1 - 1) % 7 < 5 := by omega
      rw [if_pos (is_trading_day_eq_true_iff.2 h3)]
      exact ⟨is_trading_day_eq_true_iff.2 h3, by omega, by omega⟩

/-! ### Claims about the calendar and fetch orchestration -/

/-- C7: for every date, `prev_trading_day` (one calendar-day decrement plus
the weekend-skipping loop of bhav.py lines 57-59) returns a date satisfying
`is_trading_day` — never a Saturday or Sunday — and performs at most 7
decrement steps in total (the result lies in `[d - 7, d - 1]`). -/
theorem c7_prev_trading_day_terminates (d : Int) :
    is_trading_day (prev_trading_day d) = true ∧
      d - 7 ≤ prev_trading_day d ∧ prev_trading_day d ≤ d - 1 :=
  prev_trading_day_spec d

/-- C3: during the fetch for a single requested date, a transport error
aborts immediately (one candidate examined, `transportError` surfaced, no
backward retry); a not-found outcome moves the candidate to the previous
trading day, for at most 3 attempts in total; if every attempt finds
nothing the date is reported unavailable (`noRecent`) after exactly the
three backward candidates. -/
theorem c3_transport_abort_notfound_retry (fetch : Int → FetchResult)
    (cache : Int → Bool) (d : Int) :
    (cache d = false → fetch d = .transportErr →
      download_bhavcopy fetch cache d = (.transportError, [d])) ∧
    (download_bhavcopy fetch cache d).2.length ≤ 3 ∧
    ((∀ e, cache e = false) → (∀ e, fetch e = .notFound) →
      download_bhavcopy fetch cache d =
        (.noRecent, [d, prev_trading_day d,
          prev_trading_day (prev_trading_day d)])) := by
  refine ⟨?_, downloadLoop_trace_len fetch cache 3 d, ?_⟩
  · intro hc hf
    simp [download_bhavcopy, downloadLoop, hc, hf]
  · intro hc hf
    simp [download_bhavcopy, downloadLoop, hc, hf]

/-- Witness for C3 at concrete inputs: with an empty cache, a transport
error on date 0 returns immediately with a one-element trace, and an
everywhere-absent file exhausts the three candidates. -/
theorem c3_witness :
    download_bhavcopy (fun _ => .transportErr) (fun _ => false) 0 =
      (.transportError, [0]) ∧
    download_bhavcopy (fun _ => .notFound) (fun _ => false) 0 =
      (.noRecent, [0, prev_trading_day 0,
        prev_trading_day (prev_trading_day 0)]) :=
  ⟨(c3_transport_abort_notfound_retry (fun _ => .transportErr)
      (fun _ => false) 0).1 rfl rfl,
   (c3_transport_abort_notfound_retry (fun _ => .notFound)
      (fun _ => false) 0).2.2 (fun _ => rfl) (fun _ => rfl)⟩

/-- C10: the fetch orchestration attempts the originally requested date
even when it is a Saturday or Sunday — the first candidate examined by
`download_bhavcopy` is the requested date itself; the trading-day skip is
applied only to the backward-retry candidate produced after a not-found
outcome; and the rolling-window loop iterates over all calendar days, so
its date list always contains a non-trading day. -/
theorem c10_weekend_dates_attempted (fetch : Int → FetchResult)
    (cache : Int → Bool) (today d : Int) :
    (is_trading_day d = false →
      (download_bhavcopy fetch cache d).2.head? = some d) ∧
    (cache d = false → fetch d = .notFound →
      (download_bhavcopy fetch cache d).2.tail.head? =
        some (prev_trading_day d)) ∧
    (run_window fetch cache today 30).map Prod.fst = window_dates today 30 ∧
    (∃ e ∈ window_dates today 30, is_trading_day e = false) := by
  refine ⟨?_, ?_, ?_, ?_⟩
  · intro _
    exact downloadLoop_trace_head fetch cache 2 d
  · intro hc hf
    simp only [download_bhavcopy, downloadLoop, hc, if_neg Bool.false_ne_true, hf]
    exact downloadLoop_trace_head fetch cache 1 (prev_trading_day d)
  · simp only [run_window, List.map_map]
    exact List.map_id _
  · have h0 : (0 : Int) ≤ (today + 1) % 7 := Int.emod_nonneg _ (by norm_num)
    have h7 : (today + 1) % 7 < 7 := Int.emod_lt_of_pos _ (by norm_num)
    refine ⟨today - (today + 1) % 7, ?_, ?_⟩
    · have hmem : ((today + 1) % 7).toNat ∈ List.range 30 := by
        apply List.mem_range.mpr
        omega
      have heq : today - (today + 1) % 7 =
          today - (((today + 1) % 7).toNat : Int) := by
        rw [Int.toNat_of_nonneg h0]
      rw [heq]
      exact List.mem_map.mpr ⟨_, hmem, rfl⟩
    · rw [is_trading_day_eq_false_iff]
      omega

/-- Witness for C10 at concrete inputs: date 5 is a Saturday; with empty
cache and a not-found response it is attempted first and the next candidate
is its previous trading day. -/
theorem c10_witness :
    (download_bhavcopy (fun _ => .notFound) (fun _ => false) 5).2.head? =
      some 5 ∧
    (download_bhavcopy (fun _ => .notFound) (fun _ => false) 5).2.tail.head? =
      some (prev_trading_day 5) :=
  ⟨(c10_weekend_dates_attempted (fun _ => .notFound) (fun _ => false) 0 5).1
      (by decide),
   (c10_weekend_dates_attempted (fun _ => .notFound) (fun _ => false) 0 5).2.1
      rfl rfl⟩

/-- C1: ingestion is idempotent.  Re-running `process_bhavcopy` on the same
file leaves the Store unchanged; a successful run appends exactly its
returned batch, every appended row's (date, symbol) key was absent from the
Store (rows with present keys are skipped, never overwritten), and the
re-run succeeds with an empty batch (no error). -/
theorem c1_ingest_idempotent (pd : String → RawCell) (f : RawFile)
    (store : List ProcRow) :
    (process_bhavcopy pd f (process_bhavcopy pd f store).2).2 =
      (process_bhavcopy pd f store).2 ∧
    ∀ b, (process_bhavcopy pd f store).1 = .ok b →
      (process_bhavcopy pd f store).2 = store ++ b ∧
      (∀ r ∈ b, (r.date, r.symbol) ∉ storeKeys store) ∧
      (process_bhavcopy pd f (process_bhavcopy pd f store).2).1 = .ok [] := by
  cases h : prep pd f with
  | error e =>
    simp only [process_of_prep_error h]
    refine ⟨trivial, ?_⟩
    intro b hb
    exfalso
    cases e <;> simp [outcomeOfErr] at hb
  | ok b0 =>
    set batch :=
      b0.filter (fun r => decide ((r.date, r.symbol) ∉ storeKeys store))
      with hbatch
    have h1 := process_of_prep_ok h store
    have hs1 : (process_bhavcopy pd f store).2 = store ++ batch := by
      rw [h1]
    have ho1 : (process_bhavcopy pd f store).1 = .ok batch := by
      rw [h1]
    have h2 := process_of_prep_ok h (store ++ batch)
    have hempty :
        b0.filter
          (fun r => decide ((r.date, r.symbol) ∉ storeKeys (store ++ batch)))
          = [] := by
      rw [List.filter_eq_nil_iff]
      intro r hr
      simp only [decide_eq_true_eq, not_not]
      rw [storeKeys_append]
      by_cases hk : (r.date, r.symbol) ∈ storeKeys store
      · exact List.mem_append_left _ hk
      · refine List.mem_append_right _ ?_
        have hrb : r ∈ batch := by
          rw [hbatch]
          exact mem_batch_iff.mpr ⟨hr, hk⟩
        exact List.mem_map_of_mem _ hrb
    have hsec : process_bhavcopy pd f (store ++ batch) =
        (.ok [], (store ++ batch) ++ []) := by
      rw [h2, hempty]
    refine ⟨?_, ?_⟩
    · rw [hs1, hsec]
      simp
    · intro b hb
      have hbb := ho1.symm.trans hb
      injection hbb with hbb'
      subst hbb'
      refine ⟨hs1, ?_, ?_⟩
      · intro r hr
        have := mem_batch_iff.mp (hbatch ▸ hr)
        exact this.2
      · rw [hs1, hsec]

/-- Witness for C1: ingesting `file70` into the empty Store and re-ingesting
it: the Store is unchanged by the second run, equals the appended batch, the
batch row's key was absent, and the second run returns an empty success. -/
theorem c1_witness :
    (process_bhavcopy pdId file70 (process_bhavcopy pdId file70 []).2).2 =
      (process_bhavcopy pdId file70 []).2 ∧
    (process_bhavcopy pdId file70 []).2 = [] ++ [row70] ∧
    (row70.date, row70.symbol) ∉ storeKeys [] ∧
    (process_bhavcopy pdId file70 (process_bhavcopy pdId file70 []).2).1 =
      .ok [] := by
  have hok : (process_bhavcopy pdId file70 []).1 = .ok [row70] := by
    with_unfolding_all decide
  have h := c1_ingest_idempotent pdId file70 []
  have h2 := h.2 [row70] hok
  exact ⟨h.1, h2.1, h2.2.1 row70 (List.mem_singleton.mpr rfl), h2.2.2⟩

/-- C4: when the normalized header lacks required canonical columns, the
processing fails with the schema-error outcome naming exactly the missing
required columns, and the Store is unchanged (no rows appended, no further
processing). -/
theorem c4_missing_columns_schema_error (pd : String → RawCell) (f : RawFile)
    (store : List ProcRow) (m : List String)
    (hm : required_cols.filter
      (fun c => !((normalizeFile pd f).header.contains c)) = m)
    (hne : m ≠ []) :
    process_bhavcopy pd f store = (.missingCols m, store) ∧
    ∀ c, c ∈ m ↔ c ∈ required_cols ∧ c ∉ (normalizeFile pd f).header := by
  have hprep : prep pd f = .error (.missingCols m) := by
    have hie : m.isEmpty = false := by
      cases m with
      | nil => exact absurd rfl hne
      | cons a t => rfl
    simp only [prep, hm, hie, Bool.false_eq_true, if_false]
  refine ⟨process_of_prep_error hprep store, ?_⟩
  intro c
  rw [← hm, List.mem_filter]
  simp [List.contains, List.elem_iff]

/-- Witness for C4: a file lacking the SERIES column is rejected with a
schema error naming SERIES, and the empty Store stays empty. -/
theorem c4_witness :
    process_bhavcopy pdId fileNoSeries [] = (.missingCols ["SERIES"], []) ∧
    ("SERIES" ∈ ["SERIES"] ↔
      "SERIES" ∈ required_cols ∧
        "SERIES" ∉ (normalizeFile pdId fileNoSeries).header) := by
  have h := c4_missing_columns_schema_error pdId fileNoSeries [] ["SERIES"]
    (by with_unfolding_all decide) (by simp)
  exact ⟨h.1, h.2 "SERIES"⟩

/-- C6 counterexample: the claim says a row whose DELIV_PER still fails to
parse is dropped while the rest of the batch continues.  In the code the
column-wide `astype(float)` raises on the first unparseable cell and the
whole batch is abandoned: on `fileBadDp` (row 1 DELIV_PER "abc", row 2 a
valid qualifying row) the outcome is the error path and nothing — not even
the valid row — reaches the Store. -/
theorem c6_counterexample :
    process_bhavcopy pdId fileBadDp [] = (.readError, []) ∧
    (ProcessOutcome.readError ≠ .ok [row70]) := by
  constructor
  · with_unfolding_all decide
  · intro hcon
    cases hcon

/-- C6 (amended): DELIV_PER parsing strips every comma and percent sign and
parses the remainder as a float, so "65.5", "70%", "1,200.3" yield 65.5,
70.0, 1200.3; a missing (NaN) DELIV_PER cell is dropped while the rest of
the batch continues; but a string cell that still fails to parse raises,
aborting the whole batch with the error outcome and an unchanged Store. -/
theorem c6_deliv_per_parsing_amended :
    convDelivPer (RawCell.str "65.5") = .ok (some (131 / 2)) ∧
    convDelivPer (RawCell.str "70%") = .ok (some 70) ∧
    convDelivPer (RawCell.str "1,200.3") = .ok (some (12003 / 10)) ∧
    (∀ (pd : String → RawCell) (f : RawFile) (store : List ProcRow)
      (r : Row'), r ∈ (normalizeFile pd f).rows →
      lookupCell r "SERIES" = RawCell.str "EQ" →
      convDelivPer (lookupCell r "DELIV_PER") = .error () →
      required_cols.filter
        (fun c => !((normalizeFile pd f).header.contains c)) = [] →
      process_bhavcopy pd f store = (.readError, store)) ∧
    process_bhavcopy pdId fileNaDp [] = (.ok [row70], [row70]) := by
  refine ⟨?_, ?_, ?_, ?_, ?_⟩
  · with_unfolding_all decide
  · with_unfolding_all decide
  · simp +decide [convDelivPer, astype_str, stripCommaPercent, pyFloatOfString,
      pyStrip, pyToLower, pyFloatCore, parseMantissa, digitsToQ, fracVal]
    norm_num
  · intro pd f store r hr hser hconv hcols
    have heqr : r ∈ (normalizeFile pd f).rows.filter
        (fun r => decide (lookupCell r "SERIES" = RawCell.str "EQ")) := by
      rw [List.mem_filter, decide_eq_true_iff]
      exact ⟨hr, hser⟩
    have hprep : prep pd f = .error .readError := by
      simp only [prep, hcols, List.isEmpty_nil, if_true,
        convAll_error_of_mem heqr hconv]
    exact process_of_prep_error hprep store
  · set_option maxRecDepth 4000 in
    with_unfolding_all decide

/-- Witness for C6 (amended): the batch-aborting conjunct applied to
`fileBadDp` — its first normalized row is an EQ row with unparseable
DELIV_PER, so processing any store yields the error outcome unchanged. -/
theorem c6_witness :
    process_bhavcopy pdId fileBadDp [row70] = (.readError, [row70]) := by
  refine (c6_deliv_per_parsing_amended.2.2.2.1 pdId fileBadDp [row70]
    ((normalizeFile pdId fileBadDp).rows.head (by with_unfolding_all decide))
    ?_ ?_ ?_ ?_)
  · exact List.head_mem _
  · with_unfolding_all decide
  · with_unfolding_all decide
  · with_unfolding_all decide

/-- C8 counterexample: the claim says an ingestion whose surviving set is
empty after the series/threshold filter and dedup is reported as a
distinguishable "no qualifying rows" outcome.  When the emptiness arises at
the dedup step (the file's only row already sits in the Store), the code
instead returns an empty successful batch — the orchestration reports it as
a success, not as "no qualifying rows". -/
theorem c8_counterexample :
    process_bhavcopy pdId file70 [row70] = (.ok [], [row70]) ∧
    (ProcessOutcome.ok [] ≠ .noQualifying) := by
  constructor
  · with_unfolding_all decide
  · intro hcon
    cases hcon

/-- C8 (amended): the "no qualifying rows" warning fires only when the set
is empty after the series/threshold filter, before dedup, and the Store is
unchanged; its Python return value is `None`, identical to the schema-error
and read-error returns, so the orchestration loop cannot tell it from a
failure; a batch emptied by dedup alone is returned as an empty successful
batch. -/
theorem c8_no_qualifying_amended :
    (∀ (pd : String → RawCell) (f : RawFile) (store : List ProcRow),
      prep pd f = .error .noQualifying →
      process_bhavcopy pd f store = (.noQualifying, store)) ∧
    returnedValue .noQualifying = none ∧
    (∀ m, returnedValue (.missingCols m) = none) ∧
    returnedValue .readError = none ∧
    (∀ (pd : String → RawCell) (f : RawFile) (store : List ProcRow)
      (b0 : List ProcRow), prep pd f = .ok b0 →
      (∀ r ∈ b0, (r.date, r.symbol) ∈ storeKeys store) →
      process_bhavcopy pd f store = (.ok [], store)) := by
  refine ⟨?_, rfl, fun m => rfl, rfl, ?_⟩
  · intro pd f store h
    exact process_of_prep_error h store
  · intro pd f store b0 h hall
    have hempty : b0.filter
        (fun r => decide ((r.date, r.symbol) ∉ storeKeys store)) = [] := by
      rw [List.filter_eq_nil_iff]
      intro r hr
      simp only [decide_eq_true_eq, not_not]
      exact hall r hr
    rw [process_of_prep_ok h store, hempty]
    simp

/-- Witness for C8 (amended) at concrete inputs: `fileLow` (DELIV_PER 50)
produces the warning outcome with `None`-like return on the empty Store,
and re-processing `file70` against a Store already holding its row returns
an empty success. -/
theorem c8_witness :
    process_bhavcopy pdId fileLow [] = (.noQualifying, []) ∧
    process_bhavcopy pdId file70 [row70] = (.ok [], [row70]) ∧
    returnedValue (.missingCols ["SERIES"]) = none := by
  refine ⟨?_, ?_, ?_⟩
  · exact c8_no_qualifying_amended.1 pdId fileLow []
      (by with_unfolding_all decide)
  · refine c8_no_qualifying_amended.2.2.2.2 pdId file70 [row70] [row70]
      (by with_unfolding_all decide) ?_
    intro r hr
    rw [List.mem_singleton] at hr
    subst hr
    with_unfolding_all decide
  · exact c8_no_qualifying_amended.2.2.1 ["SERIES"]

/-! ### Fixtures and helper lemmas for the dashboard and accumulation
claims -/

/-- Symbol A stored with deliveryPercent sequence [55, 60, 58, 72] across
ascending dates (the spec's non-monotone example). -/
def dbC2 : List DashRow :=
  [⟨"A", 1, "EQ", some 55, some 10⟩,
   ⟨"A", 2, "EQ", some 60, some 10⟩,
   ⟨"A", 3, "EQ", some 58, some 10⟩,
   ⟨"A", 4, "EQ", some 72, some 10⟩]

/-- Symbol A whose surviving (all > 60) sequence is [65, 70, 70, 72]. -/
def dbUp : List DashRow :=
  [⟨"A", 1, "EQ", some 65, some 10⟩,
   ⟨"A", 2, "EQ", some 70, some 10⟩,
   ⟨"A", 3, "EQ", some 70, some 10⟩,
   ⟨"A", 4, "EQ", some 72, some 10⟩]

/-- Symbol A whose surviving (all > 60) sequence is [65, 70, 68, 72]. -/
def dbDown : List DashRow :=
  [⟨"A", 1, "EQ", some 65, some 10⟩,
   ⟨"A", 2, "EQ", some 70, some 10⟩,
   ⟨"A", 3, "EQ", some 68, some 10⟩,
   ⟨"A", 4, "EQ", some 72, some 10⟩]

/-- Symbol A averaging deliveryPercent 75 and trades 150000; symbol B
averaging 40 and 200000 (the spec's accumulation-summary example). -/
def exAB : List AccRow :=
  [⟨"A", 1, some 75, some 10, some 150000⟩,
   ⟨"B", 1, some 40, some 20, some 200000⟩]

lemma mem_dashSql {db : List DashRow} {r : DashRow} :
    r ∈ dashSql db ↔ r ∈ db ∧ dashWhere r = true := by
  rw [dashSql, (List.perm_insertionSort dashLe _).mem_iff, List.mem_filter]

lemma mem_survivors {db : List DashRow} {thr : ℚ} {r : DashRow} :
    r ∈ survivors db thr ↔
      r ∈ db ∧ dashWhere r = true ∧ volOk thr r = true := by
  rw [survivors, List.mem_filter, mem_dashSql, and_assoc]

lemma survivors_deliv {db : List DashRow} {thr : ℚ} {r : DashRow}
    (hr : r ∈ survivors db thr) : ∃ q, r.deliv_per = some q ∧ 60 < q := by
  have h := (mem_survivors.mp hr).2.1
  simp only [dashWhere, Bool.and_eq_true] at h
  obtain ⟨-, h2⟩ := h
  cases hdp : r.deliv_per with
  | none => rw [hdp] at h2; cases h2
  | some q =>
    rw [hdp] at h2
    exact ⟨q, rfl, by simpa using h2⟩

lemma survivors_vol {db : List DashRow} {thr : ℚ} {r : DashRow}
    (hr : r ∈ survivors db thr) :
    ∃ q, r.total_traded_qty = some q ∧ thr ≤ q := by
  have h := (mem_survivors.mp hr).2.2
  rw [volOk] at h
  cases hq : r.total_traded_qty with
  | none => rw [hq] at h; cases h
  | some q =>
    rw [hq] at h
    exact ⟨q, rfl, by simpa using h⟩

lemma mem_stockSorted {db : List DashRow} {thr : ℚ} {s : String}
    {r : DashRow} (hr : r ∈ stockSorted db thr s) : r ∈ survivors db thr := by
  have h := (List.perm_insertionSort dateLe _).mem_iff.mp hr
  exact (List.mem_filter.mp h).1

lemma mono_iff_chain (l : List (Option ℚ)) (h : ∀ x ∈ l, x.isSome) :
    is_monotonic_increasing l = true ↔
      List.Chain' (· ≤ ·) (l.filterMap id) := by
  induction l with
  | nil => simp [is_monotonic_increasing]
  | cons x t ih =>
    cases x with
    | none => exact absurd (h none (by simp)) (by simp)
    | some a =>
      cases t with
      | nil => simp [is_monotonic_increasing]
      | cons y t2 =>
        cases y with
        | none =>
          exact absurd (h none (by simp)) (by simp)
        | some b =>
          have ih2 := ih (fun x hx => h x (List.mem_cons_of_mem _ hx))
          simp only [is_monotonic_increasing, Bool.and_eq_true,
            decide_eq_true_eq]
          rw [ih2]
          simp [List.chain'_cons]

lemma opt_gt_iff (x : Option ℚ) (c : ℚ) :
    (match x with
     | some q => decide (q > c)
     | none => false) = true ↔ ∃ q, x = some q ∧ c < q := by
  cases x <;> simp

lemma havingOk_iff (a : AccSummary) :
    havingOk a = true ↔
      (∃ p, a.avg_deliv_per = some p ∧ 60 < p) ∧
      (∃ t, a.avg_trades = some t ∧ 100000 < t) := by
  simp only [havingOk, Bool.and_eq_true, opt_gt_iff]

/-- C2 counterexample: the claim says the accumulation flag is computed
over all of a symbol's stored records ordered by date, so the stored
sequence [55, 60, 58, 72] must be flagged false.  The code first filters
`deliv_per > 60` (dashboard.py line 15), leaving only [72], which is
monotone — so symbol A IS flagged accumulating on this store. -/
theorem c2_counterexample :
    "A" ∈ (get_filtered_stocks dbC2 0).2 ∧
    dbC2.map (fun r => r.deliv_per) =
      [some 55, some 60, some 58, some 72] := by
  constructor
  · with_unfolding_all decide
  · with_unfolding_all decide

/-- C2 (amended): a symbol is flagged accumulating iff it has at least one
record surviving the series = 'EQ', deliveryPercent > 60 and volume
filters, and deliveryPercent is non-decreasing (equal neighbours allowed)
across its surviving records ordered by date ascending; in particular a
surviving sequence [65, 70, 70, 72] is flagged and [65, 70, 68, 72] is
not. -/
theorem c2_accumulating_over_survivors (db : List DashRow) (thr : ℚ)
    (s : String) :
    (s ∈ (get_filtered_stocks db thr).2 ↔
      (∃ r ∈ survivors db thr, r.symbol = s) ∧
      List.Chain' (· ≤ ·)
        ((stockSorted db thr s).filterMap (fun r => r.deliv_per))) ∧
    "A" ∈ (get_filtered_stocks dbUp 0).2 ∧
    "A" ∉ (get_filtered_stocks dbDown 0).2 := by
  refine ⟨?_, by with_unfolding_all decide, by with_unfolding_all decide⟩
  simp only [get_filtered_stocks, List.mem_filter, List.mem_dedup,
    List.mem_map]
  refine and_congr_right fun _ => ?_
  have hall : ∀ x ∈ (stockSorted db thr s).map (fun r => r.deliv_per),
      x.isSome := by
    intro x hx
    obtain ⟨r, hr, hxe⟩ := List.mem_map.mp hx
    obtain ⟨q, hq, -⟩ := survivors_deliv (mem_stockSorted hr)
    rw [← hxe, hq]
    rfl
  rw [mono_iff_chain _ hall, List.filterMap_map]
  rfl

/-- C5: the accumulation summary retains exactly the symbols with a record
in the window whose averages satisfy avgDeliveryPercent > 60 and
avgTrades > 100000 (both strict), the output is ordered by avgDeliveryQty
descending, and on the spec's example store only symbol A (75 / 150000)
appears — not B (40 / 200000). -/
theorem c5_accumulation_summary (store : List AccRow) (cutoff : Int)
    (s : String) :
    ((∃ a ∈ get_accumulation_stocks store cutoff, a.symbol = s) ↔
      (∃ r ∈ store, cutoff ≤ r.date ∧ r.symbol = s) ∧
      (∃ p, (summaryOf store cutoff s).avg_deliv_per = some p ∧ 60 < p) ∧
      (∃ t, (summaryOf store cutoff s).avg_trades = some t ∧ 100000 < t)) ∧
    List.Sorted accGe (get_accumulation_stocks store cutoff) ∧
    (get_accumulation_stocks exAB 0).map (fun a => a.symbol) = ["A"] := by
  refine ⟨?_, List.sorted_insertionSort accGe _,
    by with_unfolding_all decide⟩
  constructor
  · rintro ⟨a, ha, rfl⟩
    have ha2 := (List.perm_insertionSort accGe _).mem_iff.mp ha
    rw [List.mem_filter] at ha2
    obtain ⟨hmem, hhav⟩ := ha2
    obtain ⟨s', hs', hfa⟩ := List.mem_map.mp hmem
    have hsym : a.symbol = s' := by rw [← hfa]; rfl
    refine ⟨?_, ?_⟩
    · rw [List.mem_dedup] at hs'
      obtain ⟨r, hrw, hsymr⟩ := List.mem_map.mp hs'
      rw [windowRows, List.mem_filter, decide_eq_true_eq] at hrw
      exact ⟨r, hrw.1, hrw.2, by rw [hsymr, ← hsym]⟩
    · have hthis := (havingOk_iff a).mp hhav
      rw [← hfa] at hthis
      rw [hsym]
      exact hthis
  · rintro ⟨⟨r, hr, hdate, hsym⟩, hcond⟩
    refine ⟨summaryOf store cutoff s, ?_, rfl⟩
    apply (List.perm_insertionSort accGe _).mem_iff.mpr
    rw [List.mem_filter]
    refine ⟨?_, (havingOk_iff _).mpr hcond⟩
    apply List.mem_map.mpr
    refine ⟨s, ?_, rfl⟩
    rw [List.mem_dedup]
    apply List.mem_map.mpr
    refine ⟨r, ?_, hsym⟩
    rw [windowRows, List.mem_filter, decide_eq_true_eq]
    exact ⟨hr, hdate⟩

/-- C9: a numeric cell that fails `to_numeric(errors="coerce")` becomes the
NaN sentinel `none`, which is distinguishable from zero, and the dashboard
filters that compare numerically (volume ≥ threshold, deliveryPercent > 60)
exclude every row whose value is unknown: each surviving row carries known
values satisfying the comparison. -/
theorem c9_unknown_sentinel_excluded (s : String) (db : List DashRow)
    (thr : ℚ) (r : DashRow) :
    (pyFloatOfString s = .error () →
      toNumericCoerce (RawCell.str s) = none ∧
      toNumericCoerce (RawCell.str s) ≠ some 0) ∧
    (r ∈ (get_filtered_stocks db thr).1 →
      (∃ q, r.total_traded_qty = some q ∧ thr ≤ q) ∧
      ∃ p, r.deliv_per = some p ∧ 60 < p) := by
  constructor
  · intro h
    have hn : toNumericCoerce (RawCell.str s) = none := by
      rw [toNumericCoerce, h]
    exact ⟨hn, by rw [hn]; exact Option.noConfusion⟩
  · intro hr
    have hr' : r ∈ survivors db thr := hr
    exact ⟨survivors_vol hr', survivors_deliv hr'⟩

/-- Witness for C9 at concrete inputs: "abc" coerces to the NaN sentinel
(not zero), and the surviving row of `dbUp` carries known volume and
delivery values satisfying the thresholds. -/
theorem c9_witness :
    (toNumericCoerce (RawCell.str "abc") = none ∧
      toNumericCoerce (RawCell.str "abc") ≠ some 0) ∧
    ((∃ q, (DashRow.mk "A" 1 "EQ" (some 65) (some 10)).total_traded_qty =
        some q ∧ (0 : ℚ) ≤ q) ∧
      ∃ p, (DashRow.mk "A" 1 "EQ" (some 65) (some 10)).deliv_per =
        some p ∧ 60 < p) := by
  have h := c9_unknown_sentinel_excluded "abc" dbUp 0
    (DashRow.mk "A" 1 "EQ" (some 65) (some 10))
  exact ⟨h.1 (by with_unfolding_all decide),
    h.2 (by with_unfolding_all decide)⟩

end Bhav
